import Mathlib

/-!
Verification development for the hybrid autocomplete resolution engine
(`src/hooks/useHybridAutocomplete.ts`).

The hook is shallowly embedded as pure Lean functions:

* the two client operations `fetchEnglishAutocomplete` (term search) and
  `fetchByOracleIds` (batch search by oracle id) become functions of the
  rate-limit state, the current time (`Date.now()`, in milliseconds), and
  the settlement of the underlying `fetch` call;
* the stateful `performSearch` body becomes a two-phase machine: a
  synchronous `startResolution` phase (everything the async function runs
  up to its first suspension on a network call) and a
  `completeResolution` phase (the continuation that runs when the awaited
  call settles), operating on an explicit `HookState` that carries the
  React state cells, the rate-limit ref, and the abort-controller
  bookkeeping (`currentToken` = the controller held in
  `abortControllerRef`, `abortedTokens` = the controllers whose `abort()`
  has been called);
* JavaScript truthiness in the `a || b` idioms of the source is modelled
  explicitly (`none` and the empty string are falsy);
* aborting an in-flight `fetch` makes the awaited call settle with an
  `AbortError` rejection, which the source's catch clause swallows; this
  is how a superseded resolution's completion is modelled.

Times are natural numbers of milliseconds; string lengths are
`String.length` of the Lean string.
-/

deriving instance DecidableEq for Except

/-- JS truthiness of an optional string value: `undefined`/`null` and the
empty string are falsy. -/
def truthyOpt : Option String → Bool
  | none => false
  | some s => s != ""

/-- The JS idiom `a || d` for an optional string `a` and a string default
`d`: the left operand when it is truthy, the default otherwise. -/
def jsOrElse (a : Option String) (d : String) : String :=
  match a with
  | some s => if s != "" then s else d
  | none => d

/-- The JS idiom `a || b || c || null`: the first truthy operand, `null`
when every operand is falsy. -/
def firstTruthy : List (Option String) → Option String
  | [] => none
  | a :: rest => if truthyOpt a then a else firstTruthy rest

/-- The JS idiom `b || false` for an optional boolean. -/
def truthyBool (b : Option Bool) : Bool := b.getD false

/-- `searchTerm.trim()`: strip leading and trailing whitespace
(implemented over the character list so that it evaluates by kernel
reduction). -/
def jsTrim (s : String) : String :=
  ⟨((s.data.dropWhile Char.isWhitespace).reverse.dropWhile Char.isWhitespace).reverse⟩

/-- A normalized card row (the source's `Printing`): `name` is the
displayed name, `image_uri_small` the selected thumbnail. -/
structure Printing where
  printing_id : String
  oracle_id : String
  name : String
  set_name : String
  collector_number : String
  image_uri_small : Option String
deriving DecidableEq

/-- A set row (the source's `Set`), discriminated by its type tag. -/
structure SetInfo where
  code : String
  name : String
deriving DecidableEq

/-- One item of an autocomplete response body: a card or a set,
discriminated in the source by `result.type === 'set'`. -/
inductive AutocompleteResult where
  | card (p : Printing)
  | set (s : SetInfo)
deriving DecidableEq

/-- A parsed autocomplete response body (the source's
`AutocompleteResponse`): `data = none` models a `data` field that is not
an array (the source tests `Array.isArray(data.data)`), `cached` and
`error` are the optional fields of the envelope. -/
structure AutocompleteResponse where
  success : Bool
  cached : Option Bool
  error : Option String
  data : Option (List AutocompleteResult)
deriving DecidableEq

/-- A raw card of the paginated by-oracle-ids envelope (the source's
`Card`): `printing_id` and the image fields are optional, `oracle_id` is
a plain string (missing is modelled as the empty string, which is falsy
under the source's truthiness filter). -/
structure Card where
  printing_id : Option String
  oracle_id : String
  name : String
  set_name : Option String
  collector_number : Option String
  image_uri_small : Option String
  front_image_url : Option String
  image_uri_normal : Option String
deriving DecidableEq

/-- The structural shape of the by-oracle-ids response body: the wrapped
pagination envelope (`data.data` is an array of raw cards), the flat
already-normalized envelope (`data` is itself an array), or anything
else. -/
inductive OracleShape where
  | wrapped (cards : List Card)
  | flat (items : List AutocompleteResult)
  | other
deriving DecidableEq

/-- A parsed by-oracle-ids response body before normalization. -/
structure RawOracleResponse where
  success : Bool
  cached : Option Bool
  error : Option String
  shape : OracleShape
deriving DecidableEq

/-- The rate-limit cell `rateLimitRef.current`; the source's `until`
field is spelled `untilMs` because `until` is reserved in Lean. -/
structure RateLimitState where
  blocked : Bool
  untilMs : Nat
deriving DecidableEq

/-- The guard of the source's rate-limit check:
`rateLimitRef.current.blocked && Date.now() < rateLimitRef.current.until`. -/
def rateBlocked (rs : RateLimitState) (now : Nat) : Bool :=
  rs.blocked && decide (now < rs.untilMs)

/-- Errors thrown by the client operations, by provenance: the
rate-limit rejection / 429 throttle (`Troppe richieste…`, carrying the
seconds reported in the message), a non-2xx status (`HTTP error!
status: …`), and a rejected `fetch` (network failure). -/
inductive FetchError where
  | rateLimited (waitSeconds : Nat)
  | httpError (status : Nat)
  | network
deriving DecidableEq

/-- Settlement of the underlying `fetch`: a parsed 2xx body, a non-2xx
status (the `Retry-After` hint the server may have sent is carried but
never read by the source), or a network-level rejection. -/
inductive HttpSettle (α : Type) where
  | ok (body : α)
  | notOk (status : Nat) (retryAfterHint : Option Nat)
  | netfail
deriving DecidableEq

/-- The synchronous rate-limit check at the top of both client
operations: when blocked and still inside the window it throws
`Troppe richieste. Attendi ⌈(until − now)/1000⌉ secondi.` -/
def rateLimitCheck (rs : RateLimitState) (now : Nat) : Option FetchError :=
  if rateBlocked rs now then
    some (.rateLimited ((rs.untilMs - now + 999) / 1000))
  else none

/-- The shared tail of both client operations, applied to the settlement
of the `fetch`: a 429 arms the fixed 30-second cooldown and throws; any
other non-2xx throws `HTTP error!` leaving the rate-limit state
untouched; a rejected `fetch` propagates untouched as well; a 2xx resets
the rate-limit state to `{blocked: false, until: 0}` and yields the
body. -/
def fetchTail {α : Type} (rs : RateLimitState) (now : Nat) (settle : HttpSettle α) :
    RateLimitState × Except FetchError α :=
  match settle with
  | .netfail => (rs, .error .network)
  | .notOk status _hint =>
      if status = 429 then
        ({ blocked := true, untilMs := now + 30 * 1000 }, .error (.rateLimited 30))
      else (rs, .error (.httpError status))
  | .ok body => ({ blocked := false, untilMs := 0 }, .ok body)

/-- The source's `fetchEnglishAutocomplete`: rate-limit check, then the
term-based request; the parsed body is returned as-is. -/
def fetchEnglishAutocomplete (rs : RateLimitState) (now : Nat)
    (settle : HttpSettle AutocompleteResponse) :
    RateLimitState × Except FetchError AutocompleteResponse :=
  match rateLimitCheck rs now with
  | some e => (rs, .error e)
  | none => fetchTail rs now settle

/-- Keep filter of the wrapped envelope:
`card.oracle_id && card.printing_id` (JS truthiness). -/
def keepCard (c : Card) : Bool :=
  (c.oracle_id != "") && truthyOpt c.printing_id

/-- Conversion of a raw card to a normalized `Printing`, selecting the
thumbnail as
`card.image_uri_small || card.front_image_url || card.image_uri_normal || null`. -/
def cardToPrinting (c : Card) : Printing :=
  { printing_id := c.printing_id.getD ""
    oracle_id := c.oracle_id
    name := c.name
    set_name := jsOrElse c.set_name ""
    collector_number := jsOrElse c.collector_number ""
    image_uri_small :=
      firstTruthy [c.image_uri_small, c.front_image_url, c.image_uri_normal] }

/-- The fallback result of the by-oracle-ids normalization when neither
envelope shape is recognized. -/
def unrecognizedResponse : AutocompleteResponse :=
  { success := false
    cached := some false
    error := some "Formato risposta API non riconosciuto"
    data := some [] }

/-- Normalization of the by-oracle-ids body: the wrapped pagination
envelope is unwrapped (cards failing the keep filter are dropped, the
rest converted to `Printing`s); the flat envelope passes through; any
other shape — including `success: false` — yields
`unrecognizedResponse`. -/
def normalizeOracleResponse (r : RawOracleResponse) : AutocompleteResponse :=
  match r.shape with
  | .wrapped cards =>
      if r.success then
        { success := true
          cached := some (truthyBool r.cached)
          error := none
          data := some ((cards.filter keepCard).map (fun c => .card (cardToPrinting c))) }
      else unrecognizedResponse
  | .flat items =>
      if r.success then
        { success := r.success, cached := r.cached, error := r.error, data := some items }
      else unrecognizedResponse
  | .other => unrecognizedResponse

/-- The part of `fetchByOracleIds` that runs once the rate-limit check
has passed: the batch request followed by normalization of the parsed
body. -/
def oracleTail (rs : RateLimitState) (now : Nat)
    (settle : HttpSettle RawOracleResponse) :
    RateLimitState × Except FetchError AutocompleteResponse :=
  match fetchTail rs now settle with
  | (rs2, .ok raw) => (rs2, .ok (normalizeOracleResponse raw))
  | (rs2, .error e) => (rs2, .error e)

/-- The source's `fetchByOracleIds`: rate-limit check, the batch
request, then normalization of the parsed body. -/
def fetchByOracleIds (rs : RateLimitState) (now : Nat)
    (settle : HttpSettle RawOracleResponse) :
    RateLimitState × Except FetchError AutocompleteResponse :=
  match rateLimitCheck rs now with
  | some e => (rs, .error e)
  | none => oracleTail rs now settle

/-- One mapped item of the observable `results` list: a card carries the
(possibly replaced) `Printing` plus the translation metadata fields the
mapping may have attached; a set passes through unchanged. -/
inductive ResultItem where
  | card (p : Printing) (originalName : Option String) (preferredName : Option String)
  | set (s : SetInfo)
deriving DecidableEq

/-- The five React state cells the hook exposes. -/
structure ObservableState where
  results : List ResultItem
  loading : Bool
  error : Option String
  cached : Bool
  translatedName : Option String
deriving DecidableEq

/-- One hit of `fuseDictionary.search(...)`: `result.item.id` and
`result.item.preferred`. -/
structure FuseHit where
  id : String
  preferred : String
deriving DecidableEq

/-- The full mutable state of one mounted hook: the observable cells,
the rate-limit ref, the token (identity) of the controller currently in
`abortControllerRef`, and the tokens whose `abort()` has been called. -/
structure HookState where
  obs : ObservableState
  rs : RateLimitState
  currentToken : Nat
  abortedTokens : List Nat
deriving DecidableEq

/-- The inputs of one `performSearch(searchTerm)` invocation: the raw
term, the options and language context it closes over, the result of the
single `fuseDictionary.search(searchTerm.trim(), {limit: 10})` call the
run may make, and `Date.now()` at the synchronous start. -/
structure SearchInput where
  searchTerm : String
  minLength : Nat
  selectedLang : String
  isLangLoading : Bool
  hasFuseDictionary : Bool
  idToPreferredNameKeys : Option (List String)
  fuseResults : List FuseHit
  now : Nat
deriving DecidableEq

/-- `!idToPreferredName || Object.keys(idToPreferredName).length === 0`. -/
def dictKeysEmpty : Option (List String) → Bool
  | none => true
  | some l => l.isEmpty

/-- How a term-search response body is mapped into `results`: the
English path attaches no translation metadata; the fallback paths tag
each card with `originalName: result.name`. -/
inductive MapMode where
  | plainCards
  | fallbackCards
deriving DecidableEq

/-- The per-item mapping of a term-search response. Sets pass through in
both modes. -/
def tagResult (mode : MapMode) (r : AutocompleteResult) : ResultItem :=
  match r with
  | .set s => .set s
  | .card p =>
      match mode with
      | .plainCards => .card p none none
      | .fallbackCards => .card p (some p.name) none

/-- The map `idToPreferredMap` built by the source's `forEach` over the
fuse hits, as a lookup: later hits overwrite earlier ones on a duplicate
id (last write wins). -/
def lookupPreferred : List FuseHit → String → Option String
  | [], _ => none
  | hit :: rest, i =>
      match lookupPreferred rest i with
      | some p => some p
      | none => if hit.id == i then some hit.preferred else none

/-- `[...new Set(ids)]`: deduplication preserving first-occurrence
order, via the set of ids already seen. -/
def dedupFirstAux (seen : List String) : List String → List String
  | [] => []
  | x :: rest =>
      if x ∈ seen then dedupFirstAux seen rest
      else x :: dedupFirstAux (x :: seen) rest

/-- `[...new Set(fuseResults.map(r => r.item.id))]`. -/
def dedupFirst (l : List String) : List String := dedupFirstAux [] l

/-- `fuseResults[0]?.item?.preferred || null`. -/
def headPreferred (hits : List FuseHit) : Option String :=
  match hits with
  | [] => none
  | hit :: _ => if hit.preferred != "" then some hit.preferred else none

/-- The translated-search card mapping: `name` becomes
`idToPreferredMap[printing.oracle_id] || printing.name`, `preferredName`
is the map hit when truthy (`|| undefined`), and `originalName` always
preserves the canonical name. -/
def translateCard (hits : List FuseHit) (p : Printing) : ResultItem :=
  let preferredName := lookupPreferred hits p.oracle_id
  .card
    { p with name := if truthyOpt preferredName then preferredName.getD "" else p.name }
    (some p.name)
    (if truthyOpt preferredName then preferredName else none)

/-- `result.type !== 'set'`. -/
def isCardResult : AutocompleteResult → Bool
  | .card _ => true
  | .set _ => false

/-- Totalized form of the translated-search mapping (applied after the
card filter, so the set branch is unreachable). -/
def translateResult (hits : List FuseHit) (r : AutocompleteResult) : ResultItem :=
  match r with
  | .card p => translateCard hits p
  | .set s => .set s

/-- The shared failure arm of the response commits:
`setResults([]); setCached(false); setError(data.error || 'Errore durante la ricerca')`.
`translatedName` is not touched here. -/
def commitFailureBody (st : ObservableState) (body : AutocompleteResponse) :
    ObservableState :=
  { st with
      results := []
      cached := false
      error := some (jsOrElse body.error "Errore durante la ricerca") }

/-- The guarded commit of a response body:
`data.success && Array.isArray(data.data)` selects the success arm,
which stores the mapped items, `data.cached || false`, a null error and
the path's translated label; anything else takes the failure arm. -/
def commitResponse (st : ObservableState) (body : AutocompleteResponse)
    (mapper : List AutocompleteResult → List ResultItem)
    (translated : Option String) : ObservableState :=
  if body.success then
    match body.data with
    | some items =>
        { st with
            results := mapper items
            cached := truthyBool body.cached
            error := none
            translatedName := translated }
    | none => commitFailureBody st body
  else commitFailureBody st body

/-- The catch clause's message classification: `Troppe richieste`
messages pass verbatim, a rejected `fetch` becomes
`Errore di connessione`, and `HTTP error!` messages map to the throttle
hint when the message contains `429` (the status is interpolated into
the message, so that is a status of 429) and to
`Errore del server: …` otherwise. -/
def classifyError : FetchError → String
  | .rateLimited w => "Troppe richieste. Attendi " ++ toString w ++ " secondi."
  | .network => "Errore di connessione"
  | .httpError status =>
      if status = 429 then "Troppe richieste. Attendi qualche secondo prima di riprovare."
      else "Errore del server: HTTP error! status: " ++ toString status

/-- The catch clause's state commit for a non-abort error — note it is
not guarded by the resolution's own controller:
`setError(errorMessage); setResults([]); setCached(false)`. -/
def commitCatch (st : ObservableState) (e : FetchError) : ObservableState :=
  { st with
      error := some (classifyError e)
      results := []
      cached := false }

/-- The finally clause:
`if (!abortControllerRef.current?.signal.aborted) setLoading(false)` —
the guard inspects the controller currently in the ref (the newest one),
not the one belonging to the finishing resolution. -/
def applyFinally (h : HookState) : HookState :=
  if h.currentToken ∈ h.abortedTokens then h
  else { h with obs := { h.obs with loading := false } }

/-- The continuation behind an awaited client-operation call: a yielded
body is committed (under the success guard), a thrown error is handled
by the catch clause, and the finally clause runs last; the rate-limit
cell takes whatever the operation left in it. -/
def afterFetch (h : HookState)
    (result : RateLimitState × Except FetchError AutocompleteResponse)
    (mapper : List AutocompleteResult → List ResultItem)
    (translated : Option String) : HookState :=
  match result with
  | (rs2, .ok body) =>
      applyFinally { h with rs := rs2, obs := commitResponse h.obs body mapper translated }
  | (rs2, .error e) =>
      applyFinally { h with rs := rs2, obs := commitCatch h.obs e }

/-- The network call a resolution suspended on, with the token of the
controller whose signal the request carries and the data its
continuation closes over. -/
inductive PendingCall where
  | english (tok : Nat) (term : String) (mode : MapMode)
  | oracle (tok : Nat) (ids : List String) (hits : List FuseHit)
deriving DecidableEq

/-- Result of the synchronous phase: the run either finished without
suspending or suspended on one network call. -/
inductive StartResult where
  | done
  | pending (c : PendingCall)
deriving DecidableEq

/-- The controller token a pending call's request carries. -/
def pendingToken : PendingCall → Nat
  | .english tok _ _ => tok
  | .oracle tok _ _ => tok

/-- The outbound request a start phase issued, for stating the
no-network-call properties. -/
inductive NetCall where
  | englishCall (term : String)
  | oracleCall (ids : List String)
deriving DecidableEq

/-- The requests issued by a start phase. -/
def callsOf : StartResult → List NetCall
  | .done => []
  | .pending (.english _ term _) => [.englishCall term]
  | .pending (.oracle _ ids _) => [.oracleCall ids]

/-- Entry into one of the client operations: the synchronous rate-limit
check either throws — the rejection is caught by the catch clause and
the finally clause runs, all before any other event — or the request
goes out and the run suspends. -/
def startFetch (h : HookState) (call : PendingCall) (now : Nat) :
    HookState × StartResult :=
  match rateLimitCheck h.rs now with
  | some e => (applyFinally { h with obs := commitCatch h.obs e }, .done)
  | none => (h, .pending call)

/-- The synchronous phase of `performSearch(searchTerm)` for a fresh
controller token `tok`: clear `error` and `translatedName`; short
terms reset and finish before any abort; otherwise abort the previous
controller, install the new one, set `loading`, and dispatch on the
language and dictionary state exactly as the source does. -/
def startResolution (h : HookState) (tok : Nat) (inp : SearchInput) :
    HookState × StartResult :=
  let st0 := { h.obs with error := none, translatedName := none }
  if (jsTrim inp.searchTerm).length < inp.minLength then
    ({ h with obs := { st0 with results := [], loading := false, cached := false } }, .done)
  else
    let h1 : HookState :=
      { h with
          obs := { st0 with loading := true }
          currentToken := tok
          abortedTokens := h.currentToken :: h.abortedTokens }
    if inp.selectedLang == "en" then
      startFetch h1 (.english tok (jsTrim inp.searchTerm) .plainCards) inp.now
    else if inp.isLangLoading || !inp.hasFuseDictionary ||
        dictKeysEmpty inp.idToPreferredNameKeys then
      if inp.isLangLoading then
        (applyFinally h1, .done)
      else
        startFetch h1 (.english tok (jsTrim inp.searchTerm) .fallbackCards) inp.now
    else if inp.fuseResults.isEmpty then
      startFetch h1 (.english tok (jsTrim inp.searchTerm) .fallbackCards) inp.now
    else
      startFetch h1
        (.oracle tok (dedupFirst (inp.fuseResults.map (fun r => r.id))) inp.fuseResults)
        inp.now

/-- The continuation that runs when the suspended call settles, at time
`now`. A call whose controller has been aborted settles as an
`AbortError` rejection: the catch clause swallows it and only the
finally clause acts. Otherwise the client operation's tail runs on the
settlement, a body is committed under the
`if (!controller.signal.aborted)` guard (true here), a thrown error is
committed by the catch clause, and the finally clause runs last. -/
def completeResolution (h : HookState) (call : PendingCall) (now : Nat)
    (settleE : HttpSettle AutocompleteResponse)
    (settleO : HttpSettle RawOracleResponse) : HookState :=
  match call with
  | .english tok _term mode =>
      if tok ∈ h.abortedTokens then applyFinally h
      else afterFetch h (fetchTail h.rs now settleE) (List.map (tagResult mode)) none
  | .oracle tok _ids hits =>
      if tok ∈ h.abortedTokens then applyFinally h
      else
        afterFetch h (oracleTail h.rs now settleO)
          (fun items => (items.filter isCardResult).map (translateResult hits))
          (headPreferred hits)

/-- One whole uninterrupted run of `performSearch`: the synchronous
phase followed, when it suspended, by its own completion at time `now2`
with the given settlement. -/
def performSearch (h : HookState) (tok : Nat) (inp : SearchInput) (now2 : Nat)
    (settleE : HttpSettle AutocompleteResponse)
    (settleO : HttpSettle RawOracleResponse) : HookState :=
  match startResolution h tok inp with
  | (h1, .done) => h1
  | (h1, .pending call) => completeResolution h1 call now2 settleE settleO


/-! Concrete fixtures for the closed counterexamples and witnesses. -/

/-- A freshly mounted hook: empty observable state, clear rate limit,
controller token 0 installed, nothing aborted. -/
def fixH0 : HookState := ⟨⟨[], false, none, false, none⟩, ⟨false, 0⟩, 0, []⟩

/-- A canonical-language card row. -/
def fixCard : Printing := ⟨"p1", "abc", "Underground Sea", "LEA", "287", none⟩

/-- Query A: English, term `abcd`. -/
def fixInpEnA : SearchInput := ⟨"abcd", 2, "en", false, false, none, [], 0⟩

/-- Query B: English, term `abce`, issued while A is in flight. -/
def fixInpEnB : SearchInput := ⟨"abce", 2, "en", false, false, none, [], 5⟩

/-- The state after A's synchronous phase (token 1). -/
def fixH1 : HookState := (startResolution fixH0 1 fixInpEnA).1

/-- The state after B's synchronous phase (token 2), which aborts A. -/
def fixH2 : HookState := (startResolution fixH1 2 fixInpEnB).1

/-- A's suspended call. -/
def fixCallA : PendingCall := .english 1 "abcd" .plainCards

/-- B's suspended call. -/
def fixCallB : PendingCall := .english 2 "abce" .plainCards

/-- Italian query whose dictionary hit carries a non-empty preferred
name. -/
def fixInpIt : SearchInput :=
  ⟨"sottomare", 2, "it", false, true, some ["abc"], [⟨"abc", "mare sotterraneo"⟩], 0⟩

/-- Italian query whose single dictionary hit carries an empty preferred
name (a falsy value under JS truthiness). -/
def fixInpItEmpty : SearchInput :=
  ⟨"sottomare", 2, "it", false, true, some ["abc"], [⟨"abc", ""⟩], 0⟩

/-- Italian query with the dictionary absent (ready but unavailable). -/
def fixInpItNoDict : SearchInput := ⟨"sottomare", 2, "it", false, false, none, [], 0⟩

/-- A set row. -/
def fixSet : SetInfo := ⟨"lea", "Limited Edition Alpha"⟩

/-- A raw card with both ids present; its small image is missing so the
front image is the selected thumbnail. -/
def fixGoodCard : Card :=
  ⟨some "p1", "abc", "Underground Sea", some "LEA", some "287",
    none, some "front.jpg", some "normal.jpg"⟩

/-- A raw card missing its canonical (oracle) id. -/
def fixBadCard : Card :=
  ⟨some "p2", "", "Mystery Card", none, none, none, none, none⟩

/-! Helper lemmas about the machine. -/

theorem applyFinally_of_current_live (h : HookState)
    (hc : h.currentToken ∉ h.abortedTokens) :
    applyFinally h = { h with obs := { h.obs with loading := false } } := by
  simp [applyFinally, hc]

theorem applyFinally_tokens (h : HookState) :
    (applyFinally h).currentToken = h.currentToken
    ∧ (applyFinally h).abortedTokens = h.abortedTokens
    ∧ (applyFinally h).rs = h.rs
    ∧ (applyFinally h).obs.results = h.obs.results
    ∧ (applyFinally h).obs.error = h.obs.error
    ∧ (applyFinally h).obs.cached = h.obs.cached
    ∧ (applyFinally h).obs.translatedName = h.obs.translatedName := by
  unfold applyFinally; split <;> simp

theorem hookstate_set_loading_self (h : HookState) (hl : h.obs.loading = false) :
    { h with obs := { h.obs with loading := false } } = h := by
  obtain ⟨⟨r, l, e, ca, t⟩, rs, ct, ab⟩ := h
  simp_all

theorem startResolution_pending (h : HookState) (tok : Nat) (inp : SearchInput)
    (h1 : HookState) (c : PendingCall)
    (hs : startResolution h tok inp = (h1, .pending c)) :
    h1 = { h with
             obs := { h.obs with error := none, translatedName := none, loading := true }
             currentToken := tok
             abortedTokens := h.currentToken :: h.abortedTokens }
    ∧ pendingToken c = tok := by
  unfold startResolution startFetch at hs
  dsimp only at hs
  repeat' split at hs
  all_goals cases hrc : rateLimitCheck h.rs inp.now <;> try rw [hrc] at hs
  all_goals rw [Prod.mk.injEq] at hs
  all_goals try exact StartResult.noConfusion hs.2
  all_goals
    obtain ⟨hh, hc⟩ := hs
  all_goals
    injection hc with hc2
  all_goals
    subst hc2
  all_goals
    subst hh
  all_goals
    exact ⟨rfl, rfl⟩

theorem completeResolution_stale (h : HookState) (c : PendingCall) (now : Nat)
    (sE : HttpSettle AutocompleteResponse) (sO : HttpSettle RawOracleResponse)
    (hstale : pendingToken c ∈ h.abortedTokens) :
    completeResolution h c now sE sO = applyFinally h := by
  cases c <;> simp_all [completeResolution, pendingToken]

theorem afterFetch_tokens (h : HookState)
    (r : RateLimitState × Except FetchError AutocompleteResponse)
    (m : List AutocompleteResult → List ResultItem) (t : Option String) :
    (afterFetch h r m t).currentToken = h.currentToken
    ∧ (afterFetch h r m t).abortedTokens = h.abortedTokens := by
  rcases r with ⟨rs2, out⟩
  cases out <;> unfold afterFetch applyFinally <;> dsimp only <;> split <;> simp

theorem completeResolution_tokens (h : HookState) (c : PendingCall) (now : Nat)
    (sE : HttpSettle AutocompleteResponse) (sO : HttpSettle RawOracleResponse) :
    (completeResolution h c now sE sO).currentToken = h.currentToken
    ∧ (completeResolution h c now sE sO).abortedTokens = h.abortedTokens := by
  cases c <;> simp only [completeResolution] <;> split
  · exact ⟨(applyFinally_tokens h).1, (applyFinally_tokens h).2.1⟩
  · exact ⟨(afterFetch_tokens _ _ _ _).1, (afterFetch_tokens _ _ _ _).2⟩
  · exact ⟨(applyFinally_tokens h).1, (applyFinally_tokens h).2.1⟩
  · exact ⟨(afterFetch_tokens _ _ _ _).1, (afterFetch_tokens _ _ _ _).2⟩

theorem afterFetch_unloads (h : HookState)
    (r : RateLimitState × Except FetchError AutocompleteResponse)
    (m : List AutocompleteResult → List ResultItem) (t : Option String)
    (hc : h.currentToken ∉ h.abortedTokens) :
    (afterFetch h r m t).obs.loading = false := by
  rcases r with ⟨rs2, out⟩
  cases out <;> simp [afterFetch, applyFinally, hc]

theorem completeResolution_unloads (h : HookState) (c : PendingCall) (now : Nat)
    (sE : HttpSettle AutocompleteResponse) (sO : HttpSettle RawOracleResponse)
    (hc : h.currentToken ∉ h.abortedTokens) :
    (completeResolution h c now sE sO).obs.loading = false := by
  cases c <;> simp only [completeResolution] <;> split
  · simp [applyFinally, hc]
  · exact afterFetch_unloads _ _ _ _ hc
  · simp [applyFinally, hc]
  · exact afterFetch_unloads _ _ _ _ hc

theorem afterFetch_loading_irrel (h : HookState) (b : Bool)
    (r : RateLimitState × Except FetchError AutocompleteResponse)
    (m : List AutocompleteResult → List ResultItem) (t : Option String)
    (hc : h.currentToken ∉ h.abortedTokens) :
    afterFetch { h with obs := { h.obs with loading := b } } r m t = afterFetch h r m t := by
  rcases r with ⟨rs2, out⟩
  cases out <;>
    unfold afterFetch commitResponse commitFailureBody commitCatch applyFinally <;>
    dsimp only <;>
    (repeat' split) <;> simp_all

theorem completeResolution_loading_irrel (h : HookState) (b : Bool) (c : PendingCall)
    (now : Nat) (sE : HttpSettle AutocompleteResponse) (sO : HttpSettle RawOracleResponse)
    (hc : h.currentToken ∉ h.abortedTokens) :
    completeResolution { h with obs := { h.obs with loading := b } } c now sE sO
      = completeResolution h c now sE sO := by
  cases c with
  | english tok term mode =>
      by_cases hst : tok ∈ h.abortedTokens
      · simp only [completeResolution]
        try dsimp only
        rw [if_pos hst, if_pos hst]
        simp [applyFinally, hc]
      · simp only [completeResolution]
        try dsimp only
        rw [if_neg hst, if_neg hst]
        exact afterFetch_loading_irrel h b _ _ _ hc
  | oracle tok ids hits =>
      by_cases hst : tok ∈ h.abortedTokens
      · simp only [completeResolution]
        try dsimp only
        rw [if_pos hst, if_pos hst]
        simp [applyFinally, hc]
      · simp only [completeResolution]
        try dsimp only
        rw [if_neg hst, if_neg hst]
        exact afterFetch_loading_irrel h b _ _ _ hc

theorem commitResponse_error_empty (st : ObservableState) (body : AutocompleteResponse)
    (m : List AutocompleteResult → List ResultItem) (t : Option String)
    (he : (commitResponse st body m t).error ≠ none) :
    (commitResponse st body m t).results = [] := by
  unfold commitResponse commitFailureBody at *
  split at he <;> (try split at he) <;> simp_all

theorem afterFetch_error_empty (h : HookState)
    (r : RateLimitState × Except FetchError AutocompleteResponse)
    (m : List AutocompleteResult → List ResultItem) (t : Option String)
    (he : (afterFetch h r m t).obs.error ≠ none) :
    (afterFetch h r m t).obs.results = [] := by
  rcases r with ⟨rs2, out⟩
  by_cases hm : h.currentToken ∈ h.abortedTokens <;> cases out <;>
      simp only [afterFetch, applyFinally, hm, if_true, if_false, ite_true, ite_false] at he ⊢ <;>
    first
      | exact commitResponse_error_empty _ _ _ _ he
      | simp_all [commitCatch]

theorem completeResolution_error_empty (h : HookState) (c : PendingCall) (now : Nat)
    (sE : HttpSettle AutocompleteResponse) (sO : HttpSettle RawOracleResponse)
    (hinv : h.obs.error ≠ none → h.obs.results = [])
    (he : (completeResolution h c now sE sO).obs.error ≠ none) :
    (completeResolution h c now sE sO).obs.results = [] := by
  cases c with
  | english tok term mode =>
      by_cases hst : tok ∈ h.abortedTokens <;>
        simp only [completeResolution, hst, if_true, if_false, ite_true, ite_false] at he ⊢
      · rw [(applyFinally_tokens h).2.2.2.1]
        rw [(applyFinally_tokens h).2.2.2.2.1] at he
        exact hinv he
      · exact afterFetch_error_empty _ _ _ _ he
  | oracle tok ids hits =>
      by_cases hst : tok ∈ h.abortedTokens <;>
        simp only [completeResolution, hst, if_true, if_false, ite_true, ite_false] at he ⊢
      · rw [(applyFinally_tokens h).2.2.2.1]
        rw [(applyFinally_tokens h).2.2.2.2.1] at he
        exact hinv he
      · exact afterFetch_error_empty _ _ _ _ he

theorem startResolution_done_inv (h : HookState) (tok : Nat) (inp : SearchInput)
    (h1 : HookState) (hs : startResolution h tok inp = (h1, .done)) :
    h1.obs.error ≠ none → h1.obs.results = [] := by
  unfold startResolution startFetch at hs
  dsimp only at hs
  repeat' split at hs
  all_goals rw [Prod.mk.injEq] at hs
  all_goals try exact StartResult.noConfusion hs.2
  all_goals obtain ⟨hh, -⟩ := hs
  all_goals subst hh
  all_goals intro he
  all_goals first
    | (simp at he; done)
    | (rw [(applyFinally_tokens _).2.2.2.1]; simp [commitCatch]; done)
    | (rw [(applyFinally_tokens _).2.2.2.2.1] at he; simp at he)

theorem englishPending_complete (h1 : HookState) (tok : Nat) (term : String)
    (mode : MapMode) (now2 : Nat) (body : AutocompleteResponse)
    (items : List AutocompleteResult) (sO : HttpSettle RawOracleResponse)
    (hlive : tok ∉ h1.abortedTokens) (hcurr : h1.currentToken = tok)
    (hsucc : body.success = true) (hdata : body.data = some items) :
    completeResolution h1 (.english tok term mode) now2 (.ok body) sO
      = { h1 with
            obs := { results := items.map (tagResult mode), loading := false, error := none,
                     cached := truthyBool body.cached, translatedName := none }
            rs := ⟨false, 0⟩ } := by
  simp [completeResolution, fetchTail, afterFetch, commitResponse, applyFinally,
    hlive, hcurr, hsucc, hdata]

theorem oraclePending_complete (h1 : HookState) (tok : Nat) (ids : List String)
    (hits : List FuseHit) (now2 : Nat) (sE : HttpSettle AutocompleteResponse)
    (raw : RawOracleResponse) (items : List AutocompleteResult)
    (hlive : tok ∉ h1.abortedTokens) (hcurr : h1.currentToken = tok)
    (hsucc : (normalizeOracleResponse raw).success = true)
    (hdata : (normalizeOracleResponse raw).data = some items) :
    completeResolution h1 (.oracle tok ids hits) now2 sE (.ok raw)
      = { h1 with
            obs := { results := (items.filter isCardResult).map (translateResult hits),
                     loading := false, error := none,
                     cached := truthyBool (normalizeOracleResponse raw).cached,
                     translatedName := headPreferred hits }
            rs := ⟨false, 0⟩ } := by
  simp [completeResolution, oracleTail, fetchTail, afterFetch, commitResponse, applyFinally,
    hlive, hcurr, hsucc, hdata]

theorem startResolution_fallback (h : HookState) (tok : Nat) (inp : SearchInput)
    (hshort : ¬ (jsTrim inp.searchTerm).length < inp.minLength)
    (hlang : (inp.selectedLang == "en") = false)
    (hload : inp.isLangLoading = false)
    (hdict : inp.hasFuseDictionary = false
      ∨ dictKeysEmpty inp.idToPreferredNameKeys = true
      ∨ inp.fuseResults = [])
    (hrate : rateBlocked h.rs inp.now = false) :
    startResolution h tok inp
      = ({ h with
             obs := { h.obs with error := none, translatedName := none, loading := true }
             currentToken := tok
             abortedTokens := h.currentToken :: h.abortedTokens },
         .pending (.english tok (jsTrim inp.searchTerm) .fallbackCards)) := by
  have hrc : rateLimitCheck h.rs inp.now = none := by simp [rateLimitCheck, hrate]
  unfold startResolution startFetch
  dsimp only
  rw [if_neg hshort]
  rcases hdict with hfd | hke | hfr
  · simp [hlang, hload, hfd, hrc]
  · simp [hlang, hload, hke, hrc]
  · by_cases hd : (!inp.hasFuseDictionary || dictKeysEmpty inp.idToPreferredNameKeys) = true
    · simp [hlang, hload, hd, hrc]
    · simp [hlang, hload, hd, hfr, hrc]

theorem startResolution_translated (h : HookState) (tok : Nat) (inp : SearchInput)
    (hshort : ¬ (jsTrim inp.searchTerm).length < inp.minLength)
    (hlang : (inp.selectedLang == "en") = false)
    (hload : inp.isLangLoading = false)
    (hfd : inp.hasFuseDictionary = true)
    (hke : dictKeysEmpty inp.idToPreferredNameKeys = false)
    (hfr : inp.fuseResults ≠ [])
    (hrate : rateBlocked h.rs inp.now = false) :
    startResolution h tok inp
      = ({ h with
             obs := { h.obs with error := none, translatedName := none, loading := true }
             currentToken := tok
             abortedTokens := h.currentToken :: h.abortedTokens },
         .pending (.oracle tok (dedupFirst (inp.fuseResults.map (fun r => r.id)))
           inp.fuseResults)) := by
  have hrc : rateLimitCheck h.rs inp.now = none := by simp [rateLimitCheck, hrate]
  unfold startResolution startFetch
  dsimp only
  rw [if_neg hshort]
  simp [hlang, hload, hfd, hke, hfr, hrc]

/-! Claim theorems. -/

/-- C3, counterexample: a non-2xx, non-429 response (HTTP 500) throws
before the reset line runs, so neither client operation resets the
rate-limit state to `{blocked: false, until: 0}` — here the state
`{blocked: true, until: 1000}` (whose window has already expired at
`now = 2000`, so the check passes and the request goes out) is left
unchanged, contradicting the claim that the reset happens after any
non-throttled response. -/
theorem c3_counterexample :
    fetchEnglishAutocomplete ⟨true, 1000⟩ 2000 (.notOk 500 none)
      = (⟨true, 1000⟩, .error (.httpError 500))
    ∧ fetchByOracleIds ⟨true, 1000⟩ 2000 (.notOk 500 none)
      = (⟨true, 1000⟩, .error (.httpError 500))
    ∧ (⟨true, 1000⟩ : RateLimitState) ≠ ⟨false, 0⟩ := by decide

/-- C3 (amended): both client operations reset the rate-limit state to
`{blocked: false, until: 0}` exactly after a successful (2xx) response;
a non-2xx non-429 response, and a network failure, throw before the
reset line and leave the rate-limit state unchanged. -/
theorem c3_reset_only_on_ok (rs : RateLimitState) (now : Nat)
    (body : AutocompleteResponse) (raw : RawOracleResponse)
    (status : Nat) (hint : Option Nat)
    (hnb : rateBlocked rs now = false) (hst : status ≠ 429) :
    (fetchEnglishAutocomplete rs now (.ok body)).1 = ⟨false, 0⟩
    ∧ (fetchByOracleIds rs now (.ok raw)).1 = ⟨false, 0⟩
    ∧ (fetchEnglishAutocomplete rs now (.notOk status hint)).1 = rs
    ∧ (fetchByOracleIds rs now (.notOk status hint)).1 = rs
    ∧ (fetchEnglishAutocomplete rs now .netfail).1 = rs
    ∧ (fetchByOracleIds rs now .netfail).1 = rs := by
  simp [fetchEnglishAutocomplete, fetchByOracleIds, oracleTail, fetchTail,
    rateLimitCheck, hnb, hst]

/-- Witness for C3's amended theorem at a concrete state and responses. -/
theorem c3_reset_only_on_ok_witness :
    (fetchEnglishAutocomplete ⟨true, 1000⟩ 2000 (.ok ⟨true, none, none, some []⟩)).1
      = ⟨false, 0⟩
    ∧ (fetchEnglishAutocomplete ⟨true, 1000⟩ 2000 (.notOk 500 none)).1 = ⟨true, 1000⟩ := by
  have h := c3_reset_only_on_ok ⟨true, 1000⟩ 2000 ⟨true, none, none, some []⟩
    ⟨true, none, none, .other⟩ 500 none (by decide) (by decide)
  exact ⟨h.1, h.2.2.1⟩

/-- C4: while `blocked && now < until`, both client operations fail with
the rate-limited error carrying `⌈(until − now)/1000⌉` remaining seconds
and do so for every possible settlement of the transport — i.e. the
outcome is independent of the network, no request is consumed; when the
check passes, a 429 arms a cooldown of exactly `now + 30 * 1000`
regardless of the server's `Retry-After` hint, and both operations
behave as their post-check tails (calls proceed normally); the armed
cooldown blocks a later call exactly while `now2 < now + 30 * 1000`. -/
theorem c4_cooldown_policy (rs : RateLimitState) (now now2 : Nat) (hint : Option Nat) :
    (rateBlocked rs now = true →
      (∀ sE, fetchEnglishAutocomplete rs now sE
        = (rs, .error (.rateLimited ((rs.untilMs - now + 999) / 1000))))
      ∧ (∀ sO, fetchByOracleIds rs now sO
        = (rs, .error (.rateLimited ((rs.untilMs - now + 999) / 1000)))))
    ∧ (rateBlocked rs now = false →
        fetchEnglishAutocomplete rs now (.notOk 429 hint)
          = (⟨true, now + 30 * 1000⟩, .error (.rateLimited 30))
        ∧ fetchByOracleIds rs now (.notOk 429 hint)
          = (⟨true, now + 30 * 1000⟩, .error (.rateLimited 30))
        ∧ (∀ sE, fetchEnglishAutocomplete rs now sE = fetchTail rs now sE)
        ∧ (∀ sO, fetchByOracleIds rs now sO = oracleTail rs now sO))
    ∧ rateBlocked ⟨true, now + 30 * 1000⟩ now2 = decide (now2 < now + 30 * 1000) := by
  refine ⟨fun hb => ⟨fun sE => ?_, fun sO => ?_⟩,
    fun hnb => ⟨?_, ?_, fun sE => ?_, fun sO => ?_⟩, by simp [rateBlocked]⟩ <;>
  simp [fetchEnglishAutocomplete, fetchByOracleIds, oracleTail, fetchTail,
    rateLimitCheck, *]

/-- Witness for C4 at concrete states: a blocked call 2 seconds into a
31-second window reports 29 seconds; a passing call that receives a 429
(with a server hint of 7 seconds, ignored) arms a 30-second cooldown;
the armed cooldown no longer blocks once `now >= until`. -/
theorem c4_cooldown_policy_witness :
    fetchEnglishAutocomplete ⟨true, 31000⟩ 2000 .netfail
      = (⟨true, 31000⟩, .error (.rateLimited 29))
    ∧ fetchByOracleIds ⟨false, 0⟩ 1000 (.notOk 429 (some 7))
      = (⟨true, 31000⟩, .error (.rateLimited 30))
    ∧ rateBlocked ⟨true, 31000⟩ 31000 = false := by
  refine ⟨?_, ?_, ?_⟩
  · have h := ((c4_cooldown_policy ⟨true, 31000⟩ 2000 0 none).1 (by decide)).1 .netfail
    simpa using h
  · have h := ((c4_cooldown_policy ⟨false, 0⟩ 1000 0 (some 7)).2.1 (by decide)).2.1
    simpa using h
  · have h := (c4_cooldown_policy ⟨false, 0⟩ 1000 31000 none).2.2
    simpa using h

/-- C10: a rejection caused by the active cooldown (`blocked` and
`now < until`) leaves the rate-limit state unchanged for both client
operations: the failed check neither extends, shortens, nor clears the
window. -/
theorem c10_blocked_check_preserves_state (rs : RateLimitState) (now : Nat)
    (sE : HttpSettle AutocompleteResponse) (sO : HttpSettle RawOracleResponse)
    (hb : rateBlocked rs now = true) :
    (fetchEnglishAutocomplete rs now sE).1 = rs
    ∧ (fetchByOracleIds rs now sO).1 = rs := by
  simp [fetchEnglishAutocomplete, fetchByOracleIds, rateLimitCheck, hb]

/-- Witness for C10 at a concrete blocked state. -/
theorem c10_blocked_check_preserves_state_witness :
    (fetchEnglishAutocomplete ⟨true, 5000⟩ 1000 .netfail).1 = ⟨true, 5000⟩
    ∧ (fetchByOracleIds ⟨true, 5000⟩ 1000 .netfail).1 = ⟨true, 5000⟩ :=
  c10_blocked_check_preserves_state ⟨true, 5000⟩ 1000 .netfail .netfail (by decide)

/-- C8: when the batch-by-id body matches neither the wrapped-pagination
envelope nor the flat envelope, `fetchByOracleIds` returns (rather than
throws) a failure outcome with `success: false`, the
`Formato risposta API non riconosciuto` (unrecognized response format)
error, and an empty data list. -/
theorem c8_unrecognized_format (rs : RateLimitState) (now : Nat) (r : RawOracleResponse)
    (hnb : rateBlocked rs now = false) (hshape : r.shape = .other) :
    fetchByOracleIds rs now (.ok r) = (⟨false, 0⟩, .ok unrecognizedResponse)
    ∧ unrecognizedResponse.success = false
    ∧ unrecognizedResponse.error = some "Formato risposta API non riconosciuto"
    ∧ unrecognizedResponse.data = some [] := by
  refine ⟨?_, rfl, rfl, rfl⟩
  simp [fetchByOracleIds, oracleTail, fetchTail, rateLimitCheck,
    normalizeOracleResponse, hnb, hshape]

/-- Witness for C8 at a concrete unrecognized body. -/
theorem c8_unrecognized_format_witness :
    fetchByOracleIds ⟨false, 0⟩ 0 (.ok ⟨true, some true, none, .other⟩)
      = (⟨false, 0⟩, .ok unrecognizedResponse) :=
  (c8_unrecognized_format ⟨false, 0⟩ 0 ⟨true, some true, none, .other⟩
    (by decide) rfl).1

/-- C9: a wrapped-pagination body is unwrapped and each raw card
converted to a normalized card result, the thumbnail being the first
truthy field among `image_uri_small`, `front_image_url`,
`image_uri_normal` (absent when all are falsy); only cards with both a
truthy oracle id and a truthy printing id are kept, and in particular a
card whose oracle (canonical) id is missing never appears in the
normalized list while the others pass through. -/
theorem c9_wrapped_unwrap (rs : RateLimitState) (now : Nat)
    (cach : Option Bool) (err : Option String) (cards : List Card)
    (hnb : rateBlocked rs now = false) :
    fetchByOracleIds rs now (.ok ⟨true, cach, err, .wrapped cards⟩)
      = (⟨false, 0⟩, .ok
          ⟨true, some (truthyBool cach), none,
            some ((cards.filter keepCard).map (fun c => .card (cardToPrinting c)))⟩)
    ∧ (∀ c : Card, (cardToPrinting c).image_uri_small
        = firstTruthy [c.image_uri_small, c.front_image_url, c.image_uri_normal])
    ∧ (∀ c ∈ cards, c.oracle_id = "" →
        ∀ x ∈ (cards.filter keepCard).map (fun c2 => AutocompleteResult.card (cardToPrinting c2)),
          x ≠ .card (cardToPrinting c)) := by
  refine ⟨?_, fun c => rfl, ?_⟩
  · simp [fetchByOracleIds, oracleTail, fetchTail, rateLimitCheck,
      normalizeOracleResponse, hnb]
  · intro c _hc hcid x hx
    simp only [List.mem_map, List.mem_filter] at hx
    obtain ⟨c2, ⟨_hc2mem, hc2keep⟩, rfl⟩ := hx
    intro heq
    have h2 : cardToPrinting c2 = cardToPrinting c := by
      injection heq
    have h3 : c2.oracle_id = c.oracle_id := congrArg Printing.oracle_id h2
    simp only [keepCard, Bool.and_eq_true, bne_iff_ne, ne_eq] at hc2keep
    exact hc2keep.1 (h3.trans hcid)

/-- Witness for C9, realizing the spec's own example: a wrapped body
with one valid card and one card missing its canonical id normalizes to
a list holding only the valid card, whose thumbnail fell back to the
front image because the small image is absent. -/
theorem c9_wrapped_unwrap_witness :
    fetchByOracleIds ⟨false, 0⟩ 0
        (.ok ⟨true, some false, none, .wrapped [fixGoodCard, fixBadCard]⟩)
      = (⟨false, 0⟩, .ok
          ⟨true, some false, none,
            some [.card ⟨"p1", "abc", "Underground Sea", "LEA", "287", some "front.jpg"⟩]⟩) := by
  have h := c9_wrapped_unwrap ⟨false, 0⟩ 0 (some false) none [fixGoodCard, fixBadCard]
    (by decide)
  exact h.1.trans (by decide)

/-- C5: whenever the trimmed term is shorter than `minLength`, the run
finishes synchronously with empty results, no error, no translation
label, a cleared cached flag and `loading` off, leaving the rate-limit
state and controller bookkeeping untouched, and it issues no network
call. -/
theorem c5_short_term_resets (h : HookState) (tok : Nat) (inp : SearchInput)
    (hshort : (jsTrim inp.searchTerm).length < inp.minLength) :
    startResolution h tok inp
      = ({ h with obs := ⟨[], false, none, false, none⟩ }, .done)
    ∧ callsOf (startResolution h tok inp).2 = []
    ∧ ∀ now2 sE sO, performSearch h tok inp now2 sE sO
        = { h with obs := ⟨[], false, none, false, none⟩ } := by
  have hs : startResolution h tok inp
      = ({ h with obs := ⟨[], false, none, false, none⟩ }, .done) := by
    unfold startResolution
    dsimp only
    rw [if_pos hshort]
  refine ⟨hs, by rw [hs]; rfl, fun now2 sE sO => ?_⟩
  unfold performSearch
  rw [hs]



/-- Witness for C5: a one-character term below the default minimum
length of 2. -/
theorem c5_short_term_resets_witness :
    performSearch fixH0 1 ⟨" a", 2, "en", false, false, none, [], 0⟩ 0 .netfail .netfail
      = { fixH0 with obs := ⟨[], false, none, false, none⟩ } :=
  (c5_short_term_resets fixH0 1 ⟨" a", 2, "en", false, false, none, [], 0⟩
    (by decide)).2.2 0 .netfail .netfail

/-- C2, counterexample: a completed, non-superseded English resolution
whose successful response carries an empty item list ends with an empty
result list AND a null error, so neither of the claim's two exclusive
alternatives holds. -/
theorem c2_counterexample :
    ((performSearch fixH0 1 fixInpEnA 0 (.ok ⟨true, some false, none, some []⟩)
        .netfail).obs.results = []
      ∧ (performSearch fixH0 1 fixInpEnA 0 (.ok ⟨true, some false, none, some []⟩)
        .netfail).obs.error = none)
    ∧ ¬(((performSearch fixH0 1 fixInpEnA 0 (.ok ⟨true, some false, none, some []⟩)
          .netfail).obs.results ≠ []
        ∧ (performSearch fixH0 1 fixInpEnA 0 (.ok ⟨true, some false, none, some []⟩)
          .netfail).obs.error = none)
      ∨ ((performSearch fixH0 1 fixInpEnA 0 (.ok ⟨true, some false, none, some []⟩)
          .netfail).obs.results = []
        ∧ (performSearch fixH0 1 fixInpEnA 0 (.ok ⟨true, some false, none, some []⟩)
          .netfail).obs.error ≠ none)) := by decide

/-- C2 (amended): after any whole `performSearch` run, a non-null error
implies an empty result list — results and a non-null error are never
populated together; a run may however end with both an empty list and a
null error (e.g. a successful response with no items). -/
theorem c2_error_implies_empty (h : HookState) (tok : Nat) (inp : SearchInput)
    (now2 : Nat) (sE : HttpSettle AutocompleteResponse) (sO : HttpSettle RawOracleResponse)
    (he : (performSearch h tok inp now2 sE sO).obs.error ≠ none) :
    (performSearch h tok inp now2 sE sO).obs.results = [] := by
  unfold performSearch at he ⊢
  rcases hs : startResolution h tok inp with ⟨h1, sr⟩
  rw [hs] at he
  cases sr with
  | done => exact startResolution_done_inv h tok inp h1 hs he
  | pending c =>
      dsimp only at he ⊢
      refine completeResolution_error_empty h1 c now2 sE sO ?_ he
      obtain ⟨hh1, -⟩ := startResolution_pending h tok inp h1 c hs
      subst hh1
      intro hcontra
      simp at hcontra

/-- Witness for C2's amended theorem: an HTTP 500 run ends with a
non-null error, so its result list is empty. -/
theorem c2_error_implies_empty_witness :
    (performSearch fixH0 1 fixInpEnA 0 (.notOk 500 none) .netfail).obs.results = [] :=
  c2_error_implies_empty fixH0 1 fixInpEnA 0 (.notOk 500 none) .netfail (by decide)

/-- C1, counterexample: query A (token 1) suspends on its network call,
query B (token 2) starts and supersedes A (A's token is aborted); when
A's call then settles, A's run still commits a state change — its
finally clause checks the controller currently in the ref (B's, not
aborted) and clears `loading` while B's call is still in flight — so the
claim that a superseded resolution commits no state change is false. -/
theorem c1_counterexample :
    (startResolution fixH0 1 fixInpEnA).2 = .pending fixCallA
    ∧ (startResolution fixH1 2 fixInpEnB).2 = .pending fixCallB
    ∧ pendingToken fixCallA ∈ fixH2.abortedTokens
    ∧ fixH2.obs.loading = true
    ∧ completeResolution fixH2 fixCallA 9 (.ok ⟨true, none, none, some []⟩) .netfail
        ≠ fixH2 := by decide

/-- C1 (amended): when resolution B (a fresh token) starts before
resolution A's call settles, A's token is aborted, so A's call settles
as a swallowed abort rejection: A's completion changes nothing except
clearing the `loading` flag (the finally guard reads the current, newer
controller), and — in whichever order the two completions run — the
final state is exactly the state produced by B's completion alone:
results, error, cached and the translated label always reflect only the
newer resolution's outcome. -/
theorem c1_last_query_wins
    (h h1 h2 : HookState) (tokA tokB : Nat) (inpA inpB : SearchInput)
    (cA cB : PendingCall) (nA nB : Nat)
    (sEA sEB : HttpSettle AutocompleteResponse)
    (sOA sOB : HttpSettle RawOracleResponse)
    (hA : startResolution h tokA inpA = (h1, .pending cA))
    (hB : startResolution h1 tokB inpB = (h2, .pending cB))
    (hfresh : tokB ∉ h1.abortedTokens) (hBA : tokB ≠ tokA) :
    completeResolution h2 cA nA sEA sOA = { h2 with obs := { h2.obs with loading := false } }
    ∧ completeResolution (completeResolution h2 cA nA sEA sOA) cB nB sEB sOB
        = completeResolution h2 cB nB sEB sOB
    ∧ completeResolution (completeResolution h2 cB nB sEB sOB) cA nA sEA sOA
        = completeResolution h2 cB nB sEB sOB := by
  obtain ⟨hh1, htokA⟩ := startResolution_pending h tokA inpA h1 cA hA
  obtain ⟨hh2, htokB⟩ := startResolution_pending h1 tokB inpB h2 cB hB
  have hcur2 : h2.currentToken = tokB := by rw [hh2]
  have hab2 : h2.abortedTokens = h1.currentToken :: h1.abortedTokens := by rw [hh2]
  have hcur1 : h1.currentToken = tokA := by rw [hh1]
  have hAstale : pendingToken cA ∈ h2.abortedTokens := by
    rw [htokA, hab2, hcur1]
    exact List.mem_cons_self _ _
  have hBlive : h2.currentToken ∉ h2.abortedTokens := by
    rw [hcur2, hab2, hcur1]
    intro hmem
    rcases List.mem_cons.mp hmem with h' | h'
    · exact hBA h'
    · exact hfresh h'
  have part1 : completeResolution h2 cA nA sEA sOA
      = { h2 with obs := { h2.obs with loading := false } } := by
    rw [completeResolution_stale h2 cA nA sEA sOA hAstale,
      applyFinally_of_current_live h2 hBlive]
  refine ⟨part1, ?_, ?_⟩
  · rw [part1]
    exact completeResolution_loading_irrel h2 false cB nB sEB sOB hBlive
  · have htoks := completeResolution_tokens h2 cB nB sEB sOB
    have hstale2 : pendingToken cA ∈ (completeResolution h2 cB nB sEB sOB).abortedTokens := by
      rw [htoks.2]
      exact hAstale
    have hlive2 : (completeResolution h2 cB nB sEB sOB).currentToken
        ∉ (completeResolution h2 cB nB sEB sOB).abortedTokens := by
      rw [htoks.1, htoks.2]
      exact hBlive
    rw [completeResolution_stale _ cA nA sEA sOA hstale2,
      applyFinally_of_current_live _ hlive2]
    exact hookstate_set_loading_self _ (completeResolution_unloads h2 cB nB sEB sOB hBlive)

/-- Witness for C1's amended theorem on the concrete two-query scenario:
completing superseded A only clears the loading flag of the state B
left. -/
theorem c1_last_query_wins_witness :
    completeResolution fixH2 fixCallA 9 (.ok ⟨true, none, none, some []⟩) .netfail
      = { fixH2 with obs := { fixH2.obs with loading := false } } :=
  (c1_last_query_wins fixH0 fixH1 fixH2 1 2 fixInpEnA fixInpEnB fixCallA fixCallB
    9 0 (.ok ⟨true, none, none, some []⟩) .netfail .netfail .netfail
    (by decide) (by decide) (by decide) (by decide)).1

/-- C6: for a non-canonical-language query whose dictionary lookup
yields zero candidates, or whose dictionary is ready but empty (or
unavailable) while not loading, the run falls back to the canonical
term search (the only call issued is the English term call); on a
successful response every card is tagged with
`originalName = result.name` (equal to its displayed name) and no
`preferredName`, sets pass through, and the emitted translated label is
null. -/
theorem c6_fallback_tags (h : HookState) (tok : Nat) (inp : SearchInput)
    (now2 : Nat) (body : AutocompleteResponse) (items : List AutocompleteResult)
    (sO : HttpSettle RawOracleResponse)
    (hshort : ¬ (jsTrim inp.searchTerm).length < inp.minLength)
    (hlang : (inp.selectedLang == "en") = false)
    (hload : inp.isLangLoading = false)
    (hdict : inp.hasFuseDictionary = false
      ∨ dictKeysEmpty inp.idToPreferredNameKeys = true
      ∨ inp.fuseResults = [])
    (hrate : rateBlocked h.rs inp.now = false)
    (htokA : tok ∉ h.abortedTokens) (htokC : tok ≠ h.currentToken)
    (hsucc : body.success = true) (hdata : body.data = some items) :
    performSearch h tok inp now2 (.ok body) sO
      = { h with
            obs := ⟨items.map (tagResult .fallbackCards), false, none,
                    truthyBool body.cached, none⟩
            rs := ⟨false, 0⟩
            currentToken := tok
            abortedTokens := h.currentToken :: h.abortedTokens }
    ∧ callsOf (startResolution h tok inp).2 = [.englishCall (jsTrim inp.searchTerm)]
    ∧ ∀ x ∈ items.map (tagResult .fallbackCards),
        ∀ p oN pN, x = .card p oN pN → oN = some p.name ∧ pN = none := by
  have hstart := startResolution_fallback h tok inp hshort hlang hload hdict hrate
  have hlive : tok ∉ h.currentToken :: h.abortedTokens := by
    intro hm
    rcases List.mem_cons.mp hm with h' | h'
    · exact htokC h'
    · exact htokA h'
  refine ⟨?_, by rw [hstart]; rfl, ?_⟩
  · unfold performSearch
    rw [hstart]
    dsimp only
    rw [englishPending_complete _ tok (jsTrim inp.searchTerm) .fallbackCards now2 body
      items sO hlive rfl hsucc hdata]
  · intro x hx p oN pN hxe
    rw [List.mem_map] at hx
    obtain ⟨a, _ha, rfl⟩ := hx
    cases a with
    | card q =>
        simp only [tagResult] at hxe
        injection hxe with e1 e2 e3
        subst e1
        exact ⟨e2.symm, e3.symm⟩
    | set s => simp [tagResult] at hxe

/-- Witness for C6: an Italian query with the dictionary unavailable
falls back to the term search; the returned card is tagged with its own
name as `originalName`, the set passes through, the label is null. -/
theorem c6_fallback_tags_witness :
    performSearch fixH0 1 fixInpItNoDict 0
        (.ok ⟨true, some true, none, some [.card fixCard, .set fixSet]⟩) .netfail
      = { fixH0 with
            obs := ⟨[.card fixCard (some "Underground Sea") none, .set fixSet],
                    false, none, true, none⟩
            rs := ⟨false, 0⟩
            currentToken := 1
            abortedTokens := [0] } := by
  have h := c6_fallback_tags fixH0 1 fixInpItNoDict 0
    ⟨true, some true, none, some [.card fixCard, .set fixSet]⟩
    [.card fixCard, .set fixSet] .netfail
    (by decide) (by decide) rfl (Or.inl rfl) (by decide) (by decide) (by decide) rfl rfl
  exact h.1.trans (by decide)

/-- C7, counterexample: with a single dictionary candidate whose
preferred name is the empty string, the candidate's id `abc` is present
in the id-to-preferred map (it maps to `""`), yet the returned card's
displayed name is not the mapped preferred name (the falsy `""` makes
`preferredName || printing.name` fall back to the canonical name), and
the emitted translated label is null, not the first candidate's
preferred name `""` — so the claim fails as stated. -/
theorem c7_counterexample :
    lookupPreferred [⟨"abc", ""⟩] "abc" = some ""
    ∧ (performSearch fixH0 1 fixInpItEmpty 0 .netfail
        (.ok ⟨true, some false, none, .flat [.card fixCard]⟩)).obs.translatedName ≠ some ""
    ∧ (performSearch fixH0 1 fixInpItEmpty 0 .netfail
        (.ok ⟨true, some false, none, .flat [.card fixCard]⟩)).obs.results
        = [.card fixCard (some "Underground Sea") none]
    ∧ fixCard.name ≠ "" := by decide

/-- C7 (amended): for a non-canonical-language query with at least one
dictionary candidate, the run issues the batch-id call for the
deduplicated candidate ids; every card of the (success) response is
mapped so that its displayed name equals the mapped preferred name when
its canonical id maps to a non-empty preferred name and its original
canonical name otherwise, `originalName` always holds the original
canonical name, and the emitted translated label equals the first
candidate's preferred name when that is non-empty and null otherwise. -/
theorem c7_translated_mapping (h : HookState) (tok : Nat) (inp : SearchInput)
    (now2 : Nat) (sE : HttpSettle AutocompleteResponse) (raw : RawOracleResponse)
    (items : List AutocompleteResult)
    (hshort : ¬ (jsTrim inp.searchTerm).length < inp.minLength)
    (hlang : (inp.selectedLang == "en") = false)
    (hload : inp.isLangLoading = false)
    (hfd : inp.hasFuseDictionary = true)
    (hke : dictKeysEmpty inp.idToPreferredNameKeys = false)
    (hfr : inp.fuseResults ≠ [])
    (hrate : rateBlocked h.rs inp.now = false)
    (htokA : tok ∉ h.abortedTokens) (htokC : tok ≠ h.currentToken)
    (hsucc : (normalizeOracleResponse raw).success = true)
    (hdata : (normalizeOracleResponse raw).data = some items) :
    performSearch h tok inp now2 sE (.ok raw)
      = { h with
            obs := ⟨(items.filter isCardResult).map (translateResult inp.fuseResults),
                    false, none, truthyBool (normalizeOracleResponse raw).cached,
                    headPreferred inp.fuseResults⟩
            rs := ⟨false, 0⟩
            currentToken := tok
            abortedTokens := h.currentToken :: h.abortedTokens }
    ∧ callsOf (startResolution h tok inp).2
        = [.oracleCall (dedupFirst (inp.fuseResults.map (fun r => r.id)))]
    ∧ (∀ p : Printing, translateCard inp.fuseResults p
        = .card { p with name := match lookupPreferred inp.fuseResults p.oracle_id with
                                 | some s => if s != "" then s else p.name
                                 | none => p.name }
            (some p.name)
            (match lookupPreferred inp.fuseResults p.oracle_id with
             | some s => if s != "" then some s else none
             | none => none)) := by
  have hstart := startResolution_translated h tok inp hshort hlang hload hfd hke hfr hrate
  have hlive : tok ∉ h.currentToken :: h.abortedTokens := by
    intro hm
    rcases List.mem_cons.mp hm with h' | h'
    · exact htokC h'
    · exact htokA h'
  refine ⟨?_, by rw [hstart]; rfl, ?_⟩
  · unfold performSearch
    rw [hstart]
    dsimp only
    rw [oraclePending_complete _ tok (dedupFirst (inp.fuseResults.map (fun r => r.id)))
      inp.fuseResults now2 sE raw items hlive rfl hsucc hdata]
  · intro p
    unfold translateCard
    dsimp only
    cases hl : lookupPreferred inp.fuseResults p.oracle_id with
    | none => simp [truthyOpt]
    | some s => by_cases hs : s = "" <;> simp [truthyOpt, hs]

/-- Witness for C7's amended theorem, realizing the spec's own example:
`sottomare` resolves through the candidate
`{id: abc, preferred: mare sotterraneo}`, the batch response card
`Underground Sea` is renamed to `mare sotterraneo` keeping
`originalName = Underground Sea`, and the label is `mare sotterraneo`. -/
theorem c7_translated_mapping_witness :
    performSearch fixH0 1 fixInpIt 0 .netfail
        (.ok ⟨true, some false, none, .flat [.card fixCard]⟩)
      = { fixH0 with
            obs := ⟨[.card ⟨"p1", "abc", "mare sotterraneo", "LEA", "287", none⟩
                      (some "Underground Sea") (some "mare sotterraneo")],
                    false, none, false, some "mare sotterraneo"⟩
            rs := ⟨false, 0⟩
            currentToken := 1
            abortedTokens := [0] } := by
  have h := c7_translated_mapping fixH0 1 fixInpIt 0 .netfail
    ⟨true, some false, none, .flat [.card fixCard]⟩ [.card fixCard]
    (by decide) (by decide) rfl rfl (by decide) (by decide) (by decide)
    (by decide) (by decide) rfl rfl
  exact h.1.trans (by decide)
